import Mathlib

/-!
# Verification of the AI-SMM financial agent core

A shallow embedding of the agent core of the AI-SMM repository:

* `src/services/financial.py` — metric step functions, weights, the weighted
  scoring decision (`analyze_stock_sync`) and `compare_stocks_sync`;
* `src/services/vector_store.py` — `VectorStoreService.search`;
* `src/core/agent_tools.py` — the tool wrappers and `available_tools_list`;
* `src/core/agent_graph.py` — the LangGraph agent loop
  (`call_model_node` / `should_continue_edge` / `workflow` /
  `get_agent_graph_response`).

External effects (yfinance, Qdrant, Ollama, SerpAPI, the LLM itself) are
represented as oracle parameters; machine floats of the Python source are
modelled with exact rationals (all constants involved are exact decimal
fractions, and every reachable weighted total is an integer multiple of
1/20, so rational and IEEE-double evaluation agree on every comparison and
rounding performed by the source).
-/

set_option autoImplicit false

namespace AISMM

namespace Financial

/-- `score_pe` from `src/services/financial.py` (lines 11-21): step score of
the P/E ratio; a missing metric scores 0. -/
def score_pe (value : Option ℚ) : ℚ :=
  match value with
  | none => 0
  | some v => if v < 15 then 10 else if v < 30 then 7 else if v < 45 then 5 else 2

/-- `score_roe` from `src/services/financial.py` (lines 24-32): step score of
the ROE percentage; a missing metric scores 0. -/
def score_roe (value : Option ℚ) : ℚ :=
  match value with
  | none => 0
  | some v => if v > 20 then 10 else if v ≥ 10 then 7 else 3

/-- `score_debt_equity` from `src/services/financial.py` (lines 35-43). -/
def score_debt_equity (value : Option ℚ) : ℚ :=
  match value with
  | none => 0
  | some v => if v < 1 then 10 else if v ≤ 2 then 6 else 2

/-- `score_beta` from `src/services/financial.py` (lines 46-56). -/
def score_beta (value : Option ℚ) : ℚ :=
  match value with
  | none => 0
  | some v =>
    if 0.8 ≤ v ∧ v ≤ 1.2 then 10
    else if 1.2 < v ∧ v ≤ 1.5 then 7
    else if 1.5 < v ∧ v ≤ 2 then 5
    else 2

/-- `score_dividend_yield` from `src/services/financial.py` (lines 59-67). -/
def score_dividend_yield (value : Option ℚ) : ℚ :=
  match value with
  | none => 0
  | some v => if v > 0.03 then 10 else if v ≥ 0.01 then 7 else 3

/-- `score_revenue_growth` from `src/services/financial.py` (lines 70-78). -/
def score_revenue_growth (value : Option ℚ) : ℚ :=
  match value with
  | none => 0
  | some v => if v > 0.10 then 10 else if v ≥ 0 then 6 else 2

/-- `score_ev_ebitda` from `src/services/financial.py` (lines 81-89). -/
def score_ev_ebitda (value : Option ℚ) : ℚ :=
  match value with
  | none => 0
  | some v => if v < 8 then 10 else if v ≤ 14 then 6 else 2

/-- The keys of the `WEIGHTS` dict of `src/services/financial.py`
(lines 94-102), in insertion order. -/
inductive Metric
  | pe | roe | de | beta | dividend | growth | evebitda
deriving DecidableEq, Repr

/-- The key order of the `scores` dict of `analyze_stock_sync`
(which coincides with the `WEIGHTS` insertion order). -/
def metricKeys : List Metric :=
  [Metric.pe, Metric.roe, Metric.de, Metric.beta, Metric.dividend,
   Metric.growth, Metric.evebitda]

/-- The `WEIGHTS` dict of `src/services/financial.py` (lines 94-102). -/
def WEIGHTS : Metric → ℚ
  | Metric.pe => 0.15
  | Metric.roe => 0.20
  | Metric.de => 0.15
  | Metric.beta => 0.10
  | Metric.dividend => 0.10
  | Metric.growth => 0.15
  | Metric.evebitda => 0.15

/-- The raw metrics `analyze_stock_sync` reads from `yf.Ticker(t).info`
(lines 116-122); each may be absent. -/
structure RawMetrics where
  trailingPE : Option ℚ := none
  returnOnEquity : Option ℚ := none
  debtToEquity : Option ℚ := none
  beta : Option ℚ := none
  dividendYield : Option ℚ := none
  revenueGrowth : Option ℚ := none
  enterpriseToEbitda : Option ℚ := none

/-- The raw metric a key of the `scores` dict is computed from (before the
ROE percentage conversion). -/
def metricValue (m : RawMetrics) : Metric → Option ℚ
  | Metric.pe => m.trailingPE
  | Metric.roe => m.returnOnEquity
  | Metric.de => m.debtToEquity
  | Metric.beta => m.beta
  | Metric.dividend => m.dividendYield
  | Metric.growth => m.revenueGrowth
  | Metric.evebitda => m.enterpriseToEbitda

/-- The `scores` dict of `analyze_stock_sync` (lines 124-132): note the
source passes `roe * 100` to `score_roe` when ROE is present. -/
def subScores (m : RawMetrics) : Metric → ℚ
  | Metric.pe => score_pe m.trailingPE
  | Metric.roe => score_roe (m.returnOnEquity.map (fun r => r * 100))
  | Metric.de => score_debt_equity m.debtToEquity
  | Metric.beta => score_beta m.beta
  | Metric.dividend => score_dividend_yield m.dividendYield
  | Metric.growth => score_revenue_growth m.revenueGrowth
  | Metric.evebitda => score_ev_ebitda m.enterpriseToEbitda

/-- `total_score = sum(scores[k] * WEIGHTS[k] for k in scores)`
(line 134): every key contributes its term, missing metrics included. -/
def total_score (m : RawMetrics) : ℚ :=
  (metricKeys.map (fun k => subScores m k * WEIGHTS k)).sum

/-- The three-way decision of `analyze_stock_sync` (lines 136-141),
computed from the unrounded total. -/
def decisionOf (total : ℚ) : String :=
  if total ≥ 7.5 then "BUY" else if total ≥ 6 then "HOLD" else "SELL"

/-- `round(x, 2)` of the source's output dict (line 156).  Python rounds
halves to even, `round` below rounds halves up; no reachable total is a
half-case since every reachable `total_score * 100` is an integer. -/
def round2 (q : ℚ) : ℚ := (round (q * 100) : ℤ) / 100

/-- The pure payload of the dict `analyze_stock_sync` returns
(lines 143-158); the yfinance fetch is the `RawMetrics` input. -/
structure AnalysisResult where
  scores : Metric → ℚ
  total_score : ℚ
  decision : String

/-- `analyze_stock_sync` from `src/services/financial.py` (lines 108-158),
with the `yf.Ticker(ticker).info` lookup abstracted into the `RawMetrics`
argument. -/
def analyze_stock_sync (m : RawMetrics) : AnalysisResult :=
  { scores := subScores m
    total_score := round2 (total_score m)
    decision := decisionOf (total_score m) }

/-- The raw metrics of the spec's scoring round-trip test: `pe:12`, `roe:25`
(a 25% return on equity reaches `score_roe` as `25` after the source's
`roe * 100` conversion, so the yfinance fraction is `0.25`), `de:0.5`,
`beta:1.0`, `dividend:0.04`, `growth:0.15`, `evebitda:7`. -/
def roundTripMetrics : RawMetrics :=
  { trailingPE := some 12
    returnOnEquity := some 0.25
    debtToEquity := some 0.5
    beta := some 1
    dividendYield := some 0.04
    revenueGrowth := some 0.15
    enterpriseToEbitda := some 7 }

/-- A `RawMetrics` record with every metric absent. -/
def missingMetrics : RawMetrics := {}

lemma score_pe_bounds (v : Option ℚ) : 0 ≤ score_pe v ∧ score_pe v ≤ 10 := by
  cases v <;> simp only [score_pe] <;> first | (split_ifs <;> norm_num) | norm_num

lemma score_roe_bounds (v : Option ℚ) : 0 ≤ score_roe v ∧ score_roe v ≤ 10 := by
  cases v <;> simp only [score_roe] <;> first | (split_ifs <;> norm_num) | norm_num

lemma score_debt_equity_bounds (v : Option ℚ) :
    0 ≤ score_debt_equity v ∧ score_debt_equity v ≤ 10 := by
  cases v <;> simp only [score_debt_equity] <;> first | (split_ifs <;> norm_num) | norm_num

lemma score_beta_bounds (v : Option ℚ) : 0 ≤ score_beta v ∧ score_beta v ≤ 10 := by
  cases v <;> simp only [score_beta] <;> first | (split_ifs <;> norm_num) | norm_num

lemma score_dividend_yield_bounds (v : Option ℚ) :
    0 ≤ score_dividend_yield v ∧ score_dividend_yield v ≤ 10 := by
  cases v <;> simp only [score_dividend_yield] <;> first | (split_ifs <;> norm_num) | norm_num

lemma score_revenue_growth_bounds (v : Option ℚ) :
    0 ≤ score_revenue_growth v ∧ score_revenue_growth v ≤ 10 := by
  cases v <;> simp only [score_revenue_growth] <;> first | (split_ifs <;> norm_num) | norm_num

lemma score_ev_ebitda_bounds (v : Option ℚ) :
    0 ≤ score_ev_ebitda v ∧ score_ev_ebitda v ≤ 10 := by
  cases v <;> simp only [score_ev_ebitda] <;> first | (split_ifs <;> norm_num) | norm_num

lemma subScores_bounds (m : RawMetrics) (k : Metric) :
    0 ≤ subScores m k ∧ subScores m k ≤ 10 := by
  cases k
  · exact score_pe_bounds m.trailingPE
  · exact score_roe_bounds (m.returnOnEquity.map (fun r => r * 100))
  · exact score_debt_equity_bounds m.debtToEquity
  · exact score_beta_bounds m.beta
  · exact score_dividend_yield_bounds m.dividendYield
  · exact score_revenue_growth_bounds m.revenueGrowth
  · exact score_ev_ebitda_bounds m.enterpriseToEbitda

lemma metric_missing_score_zero (m : RawMetrics) (k : Metric)
    (h : metricValue m k = none) : subScores m k = 0 := by
  cases k <;> simp only [metricValue] at h <;>
    simp [subScores, h, score_pe, score_roe, score_debt_equity, score_beta,
      score_dividend_yield, score_revenue_growth, score_ev_ebitda]

lemma total_score_le_of_missing (m : RawMetrics) (k : Metric)
    (h : metricValue m k = none) : total_score m ≤ 10 * (1 - WEIGHTS k) := by
  have hpe := subScores_bounds m Metric.pe
  have hroe := subScores_bounds m Metric.roe
  have hde := subScores_bounds m Metric.de
  have hbeta := subScores_bounds m Metric.beta
  have hdiv := subScores_bounds m Metric.dividend
  have hgr := subScores_bounds m Metric.growth
  have hev := subScores_bounds m Metric.evebitda
  have h0 := metric_missing_score_zero m k h
  simp only [total_score, metricKeys, List.map_cons, List.map_nil, List.sum_cons,
    List.sum_nil]
  cases k <;> simp only [WEIGHTS] <;> linarith [h0]

/-- Claim C3: for the input metrics pe=12, roe=25, de=0.5, beta=1.0,
dividend=0.04, growth=0.15, evebitda=7, each metric-specific step function
returns sub-score 10, the weighted total computed by `analyze_stock_sync`
equals 10.0, and the decision is "BUY". -/
theorem claim_C3_scoring_round_trip :
    score_pe (some 12) = 10 ∧
    score_roe (some 25) = 10 ∧
    score_debt_equity (some 0.5) = 10 ∧
    score_beta (some 1) = 10 ∧
    score_dividend_yield (some 0.04) = 10 ∧
    score_revenue_growth (some 0.15) = 10 ∧
    score_ev_ebitda (some 7) = 10 ∧
    (∀ k, (analyze_stock_sync roundTripMetrics).scores k = 10) ∧
    total_score roundTripMetrics = 10 ∧
    (analyze_stock_sync roundTripMetrics).total_score = 10 ∧
    (analyze_stock_sync roundTripMetrics).decision = "BUY" := by
  refine ⟨?_, ?_, ?_, ?_, ?_, ?_, ?_, ?_, ?_, ?_, ?_⟩
  · norm_num [score_pe]
  · norm_num [score_roe]
  · norm_num [score_debt_equity]
  · norm_num [score_beta]
  · norm_num [score_dividend_yield]
  · norm_num [score_revenue_growth]
  · norm_num [score_ev_ebitda]
  · intro k
    cases k <;>
      norm_num [analyze_stock_sync, subScores, roundTripMetrics, score_pe, score_roe,
        score_debt_equity, score_beta, score_dividend_yield, score_revenue_growth,
        score_ev_ebitda]
  · norm_num [total_score, metricKeys, subScores, WEIGHTS, roundTripMetrics, score_pe,
      score_roe, score_debt_equity, score_beta, score_dividend_yield,
      score_revenue_growth, score_ev_ebitda]
  · norm_num [analyze_stock_sync, round2, total_score, metricKeys, subScores, WEIGHTS,
      roundTripMetrics, score_pe, score_roe, score_debt_equity, score_beta,
      score_dividend_yield, score_revenue_growth, score_ev_ebitda]
  · norm_num [analyze_stock_sync, decisionOf, total_score, metricKeys, subScores,
      WEIGHTS, roundTripMetrics, score_pe, score_roe, score_debt_equity, score_beta,
      score_dividend_yield, score_revenue_growth, score_ev_ebitda]

/-- Claim C4: a missing (None) metric scores 0 and that 0 still participates
in the weighted average with its full weight (so a missing metric caps the
total at `10 * (1 - weight)` — the weight is not redistributed); with all
seven metrics missing, every sub-score is 0, the weighted total is 0.0, and
the decision is "SELL". -/
theorem claim_C4_missing_metrics_score_zero :
    (∀ (m : RawMetrics) (k : Metric), metricValue m k = none → subScores m k = 0) ∧
    (∀ (m : RawMetrics) (k : Metric), metricValue m k = none →
      total_score m ≤ 10 * (1 - WEIGHTS k)) ∧
    (∀ k, (analyze_stock_sync missingMetrics).scores k = 0) ∧
    total_score missingMetrics = 0 ∧
    (analyze_stock_sync missingMetrics).total_score = 0 ∧
    (analyze_stock_sync missingMetrics).decision = "SELL" := by
  refine ⟨metric_missing_score_zero, total_score_le_of_missing, ?_, ?_, ?_, ?_⟩
  · intro k
    exact metric_missing_score_zero missingMetrics k (by cases k <;> rfl)
  · norm_num [total_score, metricKeys, subScores, missingMetrics, score_pe, score_roe,
      score_debt_equity, score_beta, score_dividend_yield, score_revenue_growth,
      score_ev_ebitda]
  · norm_num [analyze_stock_sync, round2, total_score, metricKeys, subScores,
      missingMetrics, score_pe, score_roe, score_debt_equity, score_beta,
      score_dividend_yield, score_revenue_growth, score_ev_ebitda]
  · norm_num [analyze_stock_sync, decisionOf, total_score, metricKeys, subScores,
      missingMetrics, score_pe, score_roe, score_debt_equity, score_beta,
      score_dividend_yield, score_revenue_growth, score_ev_ebitda]

/-- Claim C5: the per-metric weights sum exactly to 1.0, and for every
combination of input metrics the decision is "BUY" iff the weighted total is
≥ 7.5, "HOLD" iff it is ≥ 6.0 and < 7.5, and "SELL" iff it is < 6.0. -/
theorem claim_C5_weights_sum_one_and_thresholds :
    (metricKeys.map WEIGHTS).sum = 1 ∧
    ∀ m : RawMetrics,
      ((analyze_stock_sync m).decision = "BUY" ↔ total_score m ≥ 7.5) ∧
      ((analyze_stock_sync m).decision = "HOLD" ↔
        (total_score m ≥ 6 ∧ total_score m < 7.5)) ∧
      ((analyze_stock_sync m).decision = "SELL" ↔ total_score m < 6) := by
  constructor
  · norm_num [metricKeys, WEIGHTS]
  · intro m
    simp only [analyze_stock_sync, decisionOf]
    split_ifs with h1 h2
    · refine ⟨⟨fun _ => h1, fun _ => rfl⟩, ?_, ?_⟩
      · exact ⟨fun h => absurd h (by decide), fun h => absurd h1 (not_le.mpr h.2)⟩
      · exact ⟨fun h => absurd h (by decide),
          fun h => absurd h1 (not_le.mpr (lt_of_lt_of_le h (by norm_num)))⟩
    · refine ⟨?_, ⟨fun _ => ⟨h2, not_le.mp h1⟩, fun _ => rfl⟩, ?_⟩
      · exact ⟨fun h => absurd h (by decide), fun h => absurd h h1⟩
      · exact ⟨fun h => absurd h (by decide), fun h => absurd h2 (not_le.mpr h)⟩
    · refine ⟨?_, ?_, ⟨fun _ => not_le.mp h2, fun _ => rfl⟩⟩
      · exact ⟨fun h => absurd h (by decide), fun h => absurd h h1⟩
      · exact ⟨fun h => absurd h (by decide), fun h => absurd h.1 h2⟩

/-- The `yf.Ticker(t).info` fields read by `compare_stocks_sync`
(`src/services/financial.py`, lines 230-243); each may be absent. -/
structure TickerInfo where
  shortName : Option String := none
  currentPrice : Option ℚ := none
  regularMarketPrice : Option ℚ := none
  marketCap : Option ℚ := none
  trailingPE : Option ℚ := none
  forwardPE : Option ℚ := none
  returnOnEquity : Option ℚ := none
  dividendYield : Option ℚ := none
  beta : Option ℚ := none
  fiftyTwoWeekHigh : Option ℚ := none
  fiftyTwoWeekLow : Option ℚ := none
deriving DecidableEq

/-- Python truthiness of an optional number: `None` and `0` are falsy. -/
def truthyQ (o : Option ℚ) : Bool :=
  match o with
  | none => false
  | some v => decide (v ≠ 0)

/-- Python `a or b` on optional numbers (used for
`info.get("currentPrice") or info.get("regularMarketPrice")`). -/
def pyOr (a b : Option ℚ) : Option ℚ := if truthyQ a then a else b

/-- One element of the `comparison` list built by `compare_stocks_sync`
(lines 230-244).  The dict keys `52w_high`/`52w_low` are rendered as
`high52w`/`low52w`. -/
structure ComparisonEntry where
  ticker : String
  name : String
  price : Option ℚ
  market_cap : Option ℚ
  pe_ratio : Option ℚ
  forward_pe : Option ℚ
  roe : Option ℚ
  dividend_yield : Option ℚ
  beta : Option ℚ
  high52w : Option ℚ
  low52w : Option ℚ
deriving DecidableEq

/-- The dict appended per ticker by `compare_stocks_sync` (lines 230-244). -/
def comparisonEntry (info : TickerInfo) (ticker : String) : ComparisonEntry :=
  { ticker := ticker.toUpper
    name := info.shortName.getD "N/A"
    price := pyOr info.currentPrice info.regularMarketPrice
    market_cap := info.marketCap
    pe_ratio := info.trailingPE
    forward_pe := info.forwardPE
    roe := info.returnOnEquity
    dividend_yield := info.dividendYield
    beta := info.beta
    high52w := info.fiftyTwoWeekHigh
    low52w := info.fiftyTwoWeekLow }

/-- The result dict of `compare_stocks_sync`: either the early error dict
`{"error": "At least 2 tickers required"}` or the
`{tickers, comparison, rankings}` payload (the `rankings` sub-dict exposes
the top ticker of each sorted list, or `None` for an empty list). -/
inductive CompareOutcome where
  | failure (error : String)
  | ok (tickers : List String) (comparison : List ComparisonEntry)
      (lowest_pe highest_roe largest_market_cap : Option String)
deriving DecidableEq

/-- `compare_stocks_sync` from `src/services/financial.py` (lines 216-263),
with the yfinance lookups abstracted into the `info` oracle.  The second
component records which tickers had their market data fetched (the loop of
lines 226-244).  Python's stable `sorted` (with `reverse=True` for the
descending rankings) is modelled by the stable `List.mergeSort`. -/
def compare_stocks_sync (info : String → TickerInfo) (tickers : List String) :
    CompareOutcome × List String :=
  if tickers.length < 2 then (CompareOutcome.failure "At least 2 tickers required", [])
  else
    let kept := if tickers.length > 5 then tickers.take 5 else tickers
    let comparison := kept.map (fun t => comparisonEntry (info t) t)
    let by_pe := (comparison.filter (fun c => truthyQ c.pe_ratio)).mergeSort
      (fun a b => decide (a.pe_ratio.getD 999 ≤ b.pe_ratio.getD 999))
    let by_roe := (comparison.filter (fun c => truthyQ c.roe)).mergeSort
      (fun a b => decide (b.roe.getD 0 ≤ a.roe.getD 0))
    let by_mc := (comparison.filter (fun c => truthyQ c.market_cap)).mergeSort
      (fun a b => decide (b.market_cap.getD 0 ≤ a.market_cap.getD 0))
    (CompareOutcome.ok (kept.map String.toUpper) comparison
      (by_pe.head?.map ComparisonEntry.ticker)
      (by_roe.head?.map ComparisonEntry.ticker)
      (by_mc.head?.map ComparisonEntry.ticker), kept)

/-- Claim C10: fewer than 2 tickers yields the error result
`{"error": "At least 2 tickers required"}` with no market data fetched;
more than 5 tickers is silently truncated to the first 5 — the result is a
normal success payload covering exactly those 5, with no error and no
truncation marker. -/
theorem claim_C10_compare_stocks_bounds :
    (∀ (info : String → TickerInfo) (tickers : List String), tickers.length < 2 →
      compare_stocks_sync info tickers =
        (CompareOutcome.failure "At least 2 tickers required", [])) ∧
    (∀ (info : String → TickerInfo) (tickers : List String), 5 < tickers.length →
      ∃ lp hr lm, compare_stocks_sync info tickers =
        (CompareOutcome.ok ((tickers.take 5).map String.toUpper)
          ((tickers.take 5).map (fun t => comparisonEntry (info t) t)) lp hr lm,
         tickers.take 5)) := by
  constructor
  · intro info tickers h
    simp [compare_stocks_sync, h]
  · intro info tickers h
    have h2 : ¬ tickers.length < 2 := by omega
    simp only [compare_stocks_sync, h2, if_false, gt_iff_lt, h, if_true, ite_true,
      if_neg h2, if_pos h]
    exact ⟨_, _, _, rfl⟩

end Financial

namespace VectorStore

/-- One Qdrant hit as `VectorStoreService.search` consumes it: only the
`"text"` key of its payload matters; `payload_text = none` models a payload
without that key (`payload.get("text", "")` then falls back to `""`).
Every point written through `VectorStoreService.add_context` carries
`payload={"text": text}` with the stored text. -/
structure ScoredPoint where
  payload_text : Option String
deriving DecidableEq

/-- The sentinel `VectorStoreService.search` returns when the collection
yields no hit (`src/services/vector_store.py`, line 54). -/
def noContextSentinel : String := "Nessun contesto rilevante trovato."

/-- `VectorStoreService.search` from `src/services/vector_store.py`
(lines 45-54), with the Qdrant `client.search` call abstracted into the
`hits` argument (already limited and ranked by the client):
`hits[0].payload.get("text", "")` when there is a hit, the sentinel
otherwise. -/
def search (hits : List ScoredPoint) : String :=
  match hits with
  | hit :: _ => hit.payload_text.getD ""
  | [] => noContextSentinel

/-- `read_from_kb_tool` from `src/core/agent_tools.py` (lines 59-79):
the embedding call is abstracted into `embedResult` (its raised exception
or returned vector) and the Qdrant lookup into `searchHits`; the
`except` clause surfaces exceptions as `"KB read error: ..."` strings. -/
def read_from_kb_tool (searchHits : List ℚ → List ScoredPoint)
    (embedResult : Except String (List ℚ)) : String :=
  match embedResult with
  | Except.error e => "KB read error: " ++ e
  | Except.ok emb =>
    if emb.isEmpty then "Error: Could not create embedding."
    else search (searchHits emb)

/-- Claim C6 counterexample: when the best-matching stored text is the empty
string (an empty `content` saved through `write_to_kb_tool` stores
`payload={"text": ""}`), the knowledge-base read returns the empty string —
not a stored non-empty text and not the sentinel.  The claim "it never
returns an empty string" is therefore false. -/
theorem claim_C6_counterexample :
    search [{ payload_text := some "" }] = "" ∧
    read_from_kb_tool (fun _ => [{ payload_text := some "" }]) (Except.ok [1]) = "" ∧
    "" ≠ noContextSentinel := by
  refine ⟨rfl, ?_, by decide⟩
  rfl

/-- Claim C6 as amended: the read returns the stored `"text"` of the single
best match (with `""` as the fallback when that key is absent) or the
explicit sentinel `"Nessun contesto rilevante trovato."` when there is no
hit; the result can only be the empty string when the stored text itself is
empty or missing — whenever every hit carries a non-empty stored text, the
result is never the empty string. -/
theorem claim_C6_search_nonempty :
    (search [] = noContextSentinel) ∧
    (∀ hits : List ScoredPoint,
      (∀ hit ∈ hits, hit.payload_text ≠ none ∧ hit.payload_text ≠ some "") →
      search hits ≠ "") ∧
    (∀ (hit : ScoredPoint) (rest : List ScoredPoint),
      search (hit :: rest) = hit.payload_text.getD "") := by
  refine ⟨rfl, ?_, fun hit rest => rfl⟩
  intro hits h
  match hits with
  | [] => simp [search, noContextSentinel]
  | hit :: rest =>
    have := h hit (List.mem_cons_self hit rest)
    match hv : hit.payload_text with
    | none => exact absurd hv this.1
    | some t =>
      simp only [search, hv, Option.getD_some]
      intro ht
      exact this.2 (by rw [hv, ht])

end VectorStore

namespace AgentTools

/-- The argument fields of the tool schemas of `src/core/schemas.py`; each
tool reads only the fields its own schema declares. -/
structure ToolArgs where
  query : String := ""
  content : String := ""
  ticker : String := ""
  period : String := ""
  tickers : List String := []

/-- `json.dumps({"ticker": t, "error": msg}, ensure_ascii=False)` as the
`except` clauses of the yfinance tools build it (JSON string escaping of
the serializer is elided: the payload embeds `t` and `msg` verbatim). -/
def jsonTickerError (t msg : String) : String :=
  "\x7b\"ticker\": \"" ++ t ++ "\", \"error\": \"" ++ msg ++ "\"\x7d"

/-- The `"tickers"` list as `json.dumps` serializes it. -/
def tickersJson (ts : List String) : String :=
  String.intercalate ", " (ts.map (fun t => "\"" ++ t ++ "\""))

/-- `json.dumps({"tickers": ts, "error": msg}, ensure_ascii=False)` of the
`except` clause of `compare_stocks_tool`. -/
def jsonTickersError (ts : List String) (msg : String) : String :=
  "\x7b\"tickers\": [" ++ tickersJson ts ++ "], \"error\": \"" ++ msg ++ "\"\x7d"

/-- One `@tool` wrapper of `src/core/agent_tools.py`: `run` maps the
outcome of the wrapped `try` body (its returned string, or the exception it
raised, both external effects) to the string the tool hands back to the
agent graph.  Every wrapper's `except` clause turns the exception into an
error-describing string instead of re-raising. -/
structure AgentTool where
  name : String
  run : ToolArgs → Except String String → String

/-- `web_search_tool` (`src/core/agent_tools.py`, lines 41-56). -/
def web_search_tool : AgentTool :=
  { name := "web_search_tool"
    run := fun _ r =>
      match r with
      | Except.ok s => s
      | Except.error e => "Search error: " ++ e }

/-- `read_from_kb_tool` (lines 59-79). -/
def read_from_kb_tool : AgentTool :=
  { name := "read_from_kb_tool"
    run := fun _ r =>
      match r with
      | Except.ok s => s
      | Except.error e => "KB read error: " ++ e }

/-- `write_to_kb_tool` (lines 82-106). -/
def write_to_kb_tool : AgentTool :=
  { name := "write_to_kb_tool"
    run := fun _ r =>
      match r with
      | Except.ok s => s
      | Except.error e => "KB write error: " ++ e }

/-- `stock_scoring_tool` (lines 109-127). -/
def stock_scoring_tool : AgentTool :=
  { name := "stock_scoring_tool"
    run := fun args r =>
      match r with
      | Except.ok s => s
      | Except.error e => jsonTickerError args.ticker ("Analysis error: " ++ e) }

/-- `stock_price_tool` (lines 130-144). -/
def stock_price_tool : AgentTool :=
  { name := "stock_price_tool"
    run := fun args r =>
      match r with
      | Except.ok s => s
      | Except.error e => jsonTickerError args.ticker e }

/-- `compare_stocks_tool` (lines 147-161). -/
def compare_stocks_tool : AgentTool :=
  { name := "compare_stocks_tool"
    run := fun args r =>
      match r with
      | Except.ok s => s
      | Except.error e => jsonTickersError args.tickers e }

/-- `dividend_analysis_tool` (lines 164-178). -/
def dividend_analysis_tool : AgentTool :=
  { name := "dividend_analysis_tool"
    run := fun args r =>
      match r with
      | Except.ok s => s
      | Except.error e => jsonTickerError args.ticker e }

/-- `company_profile_tool` (lines 181-194). -/
def company_profile_tool : AgentTool :=
  { name := "company_profile_tool"
    run := fun args r =>
      match r with
      | Except.ok s => s
      | Except.error e => jsonTickerError args.ticker e }

/-- `stock_news_tool` (lines 197-211). -/
def stock_news_tool : AgentTool :=
  { name := "stock_news_tool"
    run := fun args r =>
      match r with
      | Except.ok s => s
      | Except.error e => jsonTickerError args.ticker e }

/-- `technical_indicators_tool` (lines 214-228). -/
def technical_indicators_tool : AgentTool :=
  { name := "technical_indicators_tool"
    run := fun args r =>
      match r with
      | Except.ok s => s
      | Except.error e => jsonTickerError args.ticker e }

/-- `earnings_calendar_tool` (lines 231-245). -/
def earnings_calendar_tool : AgentTool :=
  { name := "earnings_calendar_tool"
    run := fun args r =>
      match r with
      | Except.ok s => s
      | Except.error e => jsonTickerError args.ticker e }

/-- `available_tools_list` (lines 248-260), in source order. -/
def available_tools_list : List AgentTool :=
  [web_search_tool, read_from_kb_tool, write_to_kb_tool, stock_scoring_tool,
   stock_price_tool, compare_stocks_tool, dividend_analysis_tool,
   company_profile_tool, stock_news_tool, technical_indicators_tool,
   earnings_calendar_tool]

/-- Claim C9: for every tool of the catalog and every input, an exception of
the wrapped executor body never propagates: it is converted into a non-empty
error-describing string payload (the exception text embedded in a declared
per-tool format) returned as the tool's result. -/
theorem claim_C9_executors_catch_all (t : AgentTool)
    (ht : t ∈ available_tools_list) (args : ToolArgs) (e : String) :
    (∃ pre post, t.run args (Except.error e) = pre ++ e ++ post) ∧
    t.run args (Except.error e) ≠ "" := by
  simp only [available_tools_list, List.mem_cons, List.not_mem_nil, or_false] at ht
  rcases ht with h | h | h | h | h | h | h | h | h | h | h <;> subst h <;> constructor
  · exact ⟨"Search error: ", "", by simp [web_search_tool]⟩
  · intro hc
    have h2 := congrArg String.data hc
    simp [web_search_tool, String.data_append] at h2
  · exact ⟨"KB read error: ", "", by simp [read_from_kb_tool]⟩
  · intro hc
    have h2 := congrArg String.data hc
    simp [read_from_kb_tool, String.data_append] at h2
  · exact ⟨"KB write error: ", "", by simp [write_to_kb_tool]⟩
  · intro hc
    have h2 := congrArg String.data hc
    simp [write_to_kb_tool, String.data_append] at h2
  · refine ⟨"\x7b\"ticker\": \"" ++ args.ticker ++ "\", \"error\": \"" ++
      "Analysis error: ", "\"\x7d", ?_⟩
    simp [stock_scoring_tool, jsonTickerError, String.append_assoc, ← String.append_assoc]
  · intro hc
    have h2 := congrArg String.data hc
    simp [stock_scoring_tool, jsonTickerError, String.data_append] at h2
  · refine ⟨"\x7b\"ticker\": \"" ++ args.ticker ++ "\", \"error\": \"", "\"\x7d", ?_⟩
    simp [stock_price_tool, jsonTickerError, String.append_assoc, ← String.append_assoc]
  · intro hc
    have h2 := congrArg String.data hc
    simp [stock_price_tool, jsonTickerError, String.data_append] at h2
  · refine ⟨"\x7b\"tickers\": [" ++ tickersJson args.tickers ++ "], \"error\": \"",
      "\"\x7d", ?_⟩
    simp [compare_stocks_tool, jsonTickersError, String.append_assoc, ← String.append_assoc]
  · intro hc
    have h2 := congrArg String.data hc
    simp [compare_stocks_tool, jsonTickersError, String.data_append] at h2
  · refine ⟨"\x7b\"ticker\": \"" ++ args.ticker ++ "\", \"error\": \"", "\"\x7d", ?_⟩
    simp [dividend_analysis_tool, jsonTickerError, String.append_assoc, ← String.append_assoc]
  · intro hc
    have h2 := congrArg String.data hc
    simp [dividend_analysis_tool, jsonTickerError, String.data_append] at h2
  · refine ⟨"\x7b\"ticker\": \"" ++ args.ticker ++ "\", \"error\": \"", "\"\x7d", ?_⟩
    simp [company_profile_tool, jsonTickerError, String.append_assoc, ← String.append_assoc]
  · intro hc
    have h2 := congrArg String.data hc
    simp [company_profile_tool, jsonTickerError, String.data_append] at h2
  · refine ⟨"\x7b\"ticker\": \"" ++ args.ticker ++ "\", \"error\": \"", "\"\x7d", ?_⟩
    simp [stock_news_tool, jsonTickerError, String.append_assoc, ← String.append_assoc]
  · intro hc
    have h2 := congrArg String.data hc
    simp [stock_news_tool, jsonTickerError, String.data_append] at h2
  · refine ⟨"\x7b\"ticker\": \"" ++ args.ticker ++ "\", \"error\": \"", "\"\x7d", ?_⟩
    simp [technical_indicators_tool, jsonTickerError, String.append_assoc,
      ← String.append_assoc]
  · intro hc
    have h2 := congrArg String.data hc
    simp [technical_indicators_tool, jsonTickerError, String.data_append] at h2
  · refine ⟨"\x7b\"ticker\": \"" ++ args.ticker ++ "\", \"error\": \"", "\"\x7d", ?_⟩
    simp [earnings_calendar_tool, jsonTickerError, String.append_assoc,
      ← String.append_assoc]
  · intro hc
    have h2 := congrArg String.data hc
    simp [earnings_calendar_tool, jsonTickerError, String.data_append] at h2

/-- Claim C9 witness: the theorem applied to `web_search_tool` at the
concrete exception text "boom". -/
theorem claim_C9_executors_catch_all_witness :
    (∃ pre post,
      web_search_tool.run {} (Except.error "boom") = pre ++ "boom" ++ post) ∧
    web_search_tool.run {} (Except.error "boom") ≠ "" :=
  claim_C9_executors_catch_all web_search_tool (by simp [available_tools_list]) {} "boom"

end AgentTools

namespace Agent

/-- The LangChain message roles that occur in the graph of
`src/core/agent_graph.py`: `SystemMessage`, `HumanMessage`, `AIMessage`,
`ToolMessage`. -/
inductive Role where
  | system | user | assistant | tool
deriving DecidableEq, Repr

/-- One requested tool invocation of an `AIMessage.tool_calls` entry. -/
structure ToolCall where
  name : String
  args : String
  id : String
deriving DecidableEq, Repr

/-- One LangChain message as the graph manipulates it.  `tool_calls` is
non-empty only on assistant turns; `tool_call_id` is set only on tool
results.  `add_messages` gives model/tool messages fresh ids, so the
annotated state only ever grows by appends. -/
structure Message where
  role : Role
  content : String
  tool_calls : List ToolCall := []
  tool_call_id : Option String := none
deriving DecidableEq, Repr

/-- `SYSTEM_PROMPT` of `src/core/agent_graph.py` (lines 13-77), verbatim. -/
def SYSTEM_PROMPT : String := "
Sei un assistente AI esperto in finanza (equity/credit/macro) e risk-aware.
Devi rispondere in modo accurato, conciso e tecnico, usando solo informazioni verificabili.
Se l informazione non è disponibile, dichiaralo esplicitamente e proponi come ottenerla.

=== PRINCIPI GENERALI ===
- Non inventare dati, numeri, eventi, quotazioni, percentuali o dichiarazioni.
- Non dedurre come “fatto” ciò che è solo plausibile: separa sempre Fatti / Ipotesi / Opinioni.
- Se il contesto fornito è insufficiente, fai la migliore risposta possibile con assunzioni minime e
chiaramente etichettate.
- Output preferito: bullet points + eventuale JSON quando richiesto dagli strumenti.

=== STRATEGIA DI UTILIZZO TOOL (OBBLIGATORIA) ===
Hai a disposizione: web_search_tool, read_from_kb_tool, write_to_kb_tool, stock_scoring_tool.

1) PRIORITÀ DELLE FONTI (ordine vincolante)
   a) Contesto fornito dall utente (massima priorità).
   b) Knowledge Base interna (KB) tramite read_from_kb_tool.
   c) Web tramite web_search_tool (solo se serve informazione aggiornata/non presente).

2) POLICY WEB SEARCH (MAX 2 CHIAMATE)
- Esegui web_search_tool SOLO se:
  - l utente chiede esplicitamente “notizie recenti / aggiornamenti / oggi / ultime trimestrali / guidance / evento
  accaduto di recente”, oppure
  - linformazione è time-sensitive (prezzi, earnings, M&A, regolamentazioni, comunicati recenti) e non è in KB.
- Prima di usare il web: prova read_from_kb_tool se la domanda può essere coperta da conoscenza interna.
- Massimo 2 chiamate totali a web_search_tool per richiesta.
- Ogni chiamata web deve essere “mirata”: query breve ma specifica (società + evento + data/periodo se noto).
- Dopo 2 chiamate: NON cercare oltre. Se mancano dati, dichiaralo e prosegui con quanto disponibile.

3) POLICY KB READ (DEFAULT)
- Usa read_from_kb_tool come prima scelta quando:
  - la domanda è concettuale, procedurale, definitoria, comparativa (es. ratio, metodologia, modelli, rischio),
  - o riguarda informazioni “stabili” già salvate (note interne, sintesi, definizioni, policy).
- Se il risultato KB è vuoto o troppo generico: puoi fare 1 web_search_tool (rispettando il limite massimo).

4) POLICY KB WRITE (SOLO QUANDO SERVE DAVVERO)
- Usa write_to_kb_tool SOLO per salvare:
  - definizioni/linee guida riusabili, checklist, procedure, template,
  - sintesi stabili di fonti (non time-sensitive) oppure decisioni/assunzioni del progetto.
- NON scrivere in KB:
  - prezzi, “ultime notizie”, risultati trimestrali, contenuti che scadono rapidamente,
  - opinioni non verificabili,
  - contenuti duplicati o rumorosi.
- Prima di scrivere: verifica con read_from_kb_tool che non esista già un contenuto equivalente.
- Quando scrivi: salva testo autocontenuto e datato, con contesto minimo e tag
(es. “FINANCE|RATIO|ROE”, “MACRO|INFLATION|EU”).

5) POLICY STOCK SCORING (QUANDO USARLO)
- Usa stock_scoring_tool quando l utente chiede:
  - “score”, “BUY/HOLD/SELL”, “valutazione rapida”, “screening”, “analisi indicatori base”.
- Non usare stock_scoring_tool per:
  - notizie, cause di movimenti di prezzo, eventi societari, o analisi qualitativa senza metriche.
- Dopo il tool:
  - riporta decisione + motivazioni sintetiche,
  - separa chiaramente: metriche osservate vs interpretazione,
  - segnala limiti: dati mancanti, settore non confrontabile, metriche distorte.


=== SICUREZZA E COMPLIANCE ===
- Non dare consulenza finanziaria personalizzata (“compra/vendi per te”): fornisci analisi informativa e rischi.
- Se l utente chiede previsioni certe: rispondi con scenari e sensitività, non certezze.

Ricorda: accuratezza > completezza. Se manca un dato, dillo.
"

/-- The leading `SystemMessage(content=SYSTEM_PROMPT)` of
`get_agent_graph_response`. -/
def systemMessage : Message := { role := Role.system, content := SYSTEM_PROMPT }

/-- The tool names of `available_tools_list` that `ToolNode` can dispatch
(`tool_node = ToolNode(available_tools_list)`, line 82). -/
def availableToolNames : List String :=
  AgentTools.available_tools_list.map (fun t => t.name)

/-- The messages and executor-invocation trace one `ToolNode` super-step
produces.  `messages` are the `ToolMessage`s appended to the state, in
request order; `trace` records each `(tool_name, args)` the executor
actually ran. -/
structure ToolExec where
  messages : List Message
  trace : List (String × String)

/-- The `action` node (`ToolNode(available_tools_list)`): execute each
requested call in order; a call naming a catalogued tool invokes its
executor (abstracted into `exec`), an unknown name yields LangGraph's
error `ToolMessage` without invoking anything.  No count, budget or policy
is consulted anywhere. -/
def runToolCalls (exec : String → String → String) : List ToolCall → ToolExec
  | [] => { messages := [], trace := [] }
  | c :: rest =>
    let r := runToolCalls exec rest
    if availableToolNames.contains c.name then
      let msg : Message :=
        { role := Role.tool
          content := exec c.name c.args
          tool_call_id := some c.id }
      { messages := msg :: r.messages, trace := (c.name, c.args) :: r.trace }
    else
      let msg : Message :=
        { role := Role.tool
          content := "Error: " ++ c.name ++ " is not a valid tool."
          tool_call_id := some c.id }
      { messages := msg :: r.messages, trace := r.trace }

/-- `should_continue_edge` from `src/core/agent_graph.py` (lines 101-107):
inspect `state['messages'][-1]`; a non-empty `tool_calls` routes to the
`action` node, otherwise the graph ends. -/
def should_continue_edge (msgs : List Message) : String :=
  match msgs.getLast? with
  | some m => if m.tool_calls.isEmpty then "end_conversation" else "continue_to_tools"
  | none => "end_conversation"

/-- One run of the compiled `workflow` graph.  `finalMessage` is the
assistant message the run ended on (`none` when the `fuel` bound fell
before the model stopped requesting tools — the source loop itself has no
exit besides `should_continue_edge`); `messages` the final state;
`contexts` every message sequence handed to `llm_with_tools.ainvoke`, in
order; `trace` every executor invocation. -/
structure RunResult where
  finalMessage : Option Message
  messages : List Message
  contexts : List (List Message)
  trace : List (String × String)

/-- `app.ainvoke` of the compiled graph (lines 109-124): entry point
`agent` (`call_model_node`, the model abstracted into `model`), the
conditional edge `should_continue_edge`, the `action` tool node, and the
unconditional edge `action → agent`.  The source has no iteration bound of
its own; `fuel` (the number of model turns still permitted) makes the
recursion total in the embedding. -/
def app_ainvoke (model : List Message → String × List ToolCall)
    (exec : String → String → String) : Nat → List Message → RunResult
  | 0, msgs => { finalMessage := none, messages := msgs, contexts := [], trace := [] }
  | (n + 1), msgs =>
    let am : Message :=
      { role := Role.assistant
        content := (model msgs).1
        tool_calls := (model msgs).2 }
    if (model msgs).2.isEmpty then
      { finalMessage := some am, messages := msgs ++ [am], contexts := [msgs],
        trace := [] }
    else
      let tr := runToolCalls exec (model msgs).2
      let rest := app_ainvoke model exec n (msgs ++ [am] ++ tr.messages)
      { finalMessage := rest.finalMessage, messages := rest.messages,
        contexts := msgs :: rest.contexts, trace := tr.trace ++ rest.trace }

/-- One entry of the Streamlit chat history dict list. -/
structure StMsg where
  role : String
  content : String
  tool_calls : List ToolCall := []

/-- `format_st_history_to_langchain` (lines 127-136): `user` entries become
`HumanMessage`s, `assistant` entries `AIMessage`s, anything else is
dropped. -/
def format_st_history_to_langchain : List StMsg → List Message
  | [] => []
  | m :: rest =>
    if m.role = "user" then
      { role := Role.user, content := m.content } ::
        format_st_history_to_langchain rest
    else if m.role = "assistant" then
      { role := Role.assistant, content := m.content, tool_calls := m.tool_calls } ::
        format_st_history_to_langchain rest
    else
      format_st_history_to_langchain rest

/-- The message list `get_agent_graph_response` hands to `app.ainvoke`
(lines 143-147): the system prompt first, then the converted history, then
the new user question. -/
def initialMessages (user_query : String) (chat_history : List StMsg) : List Message :=
  systemMessage ::
    (format_st_history_to_langchain chat_history ++
      [{ role := Role.user, content := user_query }])

/-- `get_agent_graph_response` (lines 138-153): build the initial state and
run the graph.  The source returns `final_state['messages'][-1]`; the
embedding keeps the whole `RunResult` so the theorems can also speak about
the contexts and the executor trace. -/
def get_agent_graph_response (model : List Message → String × List ToolCall)
    (exec : String → String → String) (fuel : Nat) (user_query : String)
    (chat_history : List StMsg) : RunResult :=
  app_ainvoke model exec fuel (initialMessages user_query chat_history)

lemma should_continue_edge_concat (msgs : List Message) (am : Message) :
    should_continue_edge (msgs ++ [am]) =
      if am.tool_calls.isEmpty then "end_conversation" else "continue_to_tools" := by
  simp [should_continue_edge, List.getLast?_concat]

/-- The assistant `Message` built from the model's reply to a context
(`call_model_node` wrapping `llm_with_tools.ainvoke`). -/
def assistantMsg (model : List Message → String × List ToolCall)
    (msgs : List Message) : Message :=
  { role := Role.assistant
    content := (model msgs).1
    tool_calls := (model msgs).2 }

/-- The branch taken inside `app_ainvoke` is exactly the routing of the
source's conditional edge `should_continue_edge` on the state with the
fresh assistant message appended. -/
lemma app_ainvoke_routes_via_edge (model : List Message → String × List ToolCall)
    (msgs : List Message) :
    (should_continue_edge (msgs ++ [assistantMsg model msgs]) = "continue_to_tools"
      ↔ ¬ (model msgs).2.isEmpty = true) := by
  rw [should_continue_edge_concat]
  cases h : (model msgs).2.isEmpty <;> simp [assistantMsg, h]

/-- The state `app_ainvoke` recurses on after a tool step: the previous
state, the assistant message, the tool results. -/
def nextState (model : List Message → String × List ToolCall)
    (exec : String → String → String) (msgs : List Message) : List Message :=
  msgs ++ [assistantMsg model msgs] ++ (runToolCalls exec (model msgs).2).messages

lemma app_ainvoke_zero (model : List Message → String × List ToolCall)
    (exec : String → String → String) (msgs : List Message) :
    app_ainvoke model exec 0 msgs =
      { finalMessage := none, messages := msgs, contexts := [], trace := [] } := rfl

lemma app_ainvoke_succ_empty (model : List Message → String × List ToolCall)
    (exec : String → String → String) (n : Nat) (msgs : List Message)
    (h : (model msgs).2.isEmpty = true) :
    app_ainvoke model exec (n + 1) msgs =
      { finalMessage := some (assistantMsg model msgs)
        messages := msgs ++ [assistantMsg model msgs]
        contexts := [msgs]
        trace := [] } := by
  simp [app_ainvoke, h, assistantMsg]

lemma app_ainvoke_succ_tools (model : List Message → String × List ToolCall)
    (exec : String → String → String) (n : Nat) (msgs : List Message)
    (h : ¬ (model msgs).2.isEmpty = true) :
    app_ainvoke model exec (n + 1) msgs =
      { finalMessage := (app_ainvoke model exec n (nextState model exec msgs)).finalMessage
        messages := (app_ainvoke model exec n (nextState model exec msgs)).messages
        contexts := msgs :: (app_ainvoke model exec n (nextState model exec msgs)).contexts
        trace := (runToolCalls exec (model msgs).2).trace ++
          (app_ainvoke model exec n (nextState model exec msgs)).trace } := by
  simp [app_ainvoke, h, nextState, assistantMsg]

lemma runToolCalls_roles (exec : String → String → String) (calls : List ToolCall) :
    ∀ m ∈ (runToolCalls exec calls).messages, m.role = Role.tool := by
  induction calls with
  | nil => simp [runToolCalls]
  | cons c rest ih =>
    intro m hm
    simp only [runToolCalls] at hm
    split at hm <;> rcases List.mem_cons.mp hm with h | h <;>
      first | (subst h; rfl) | exact ih m h

/-- The shape claim C8 asserts of every sequence sent to the model: the
system prompt message first, and no system-role message anywhere after it. -/
def sysFirstNoDup (l : List Message) : Prop :=
  ∃ rest, l = systemMessage :: rest ∧ ∀ m ∈ rest, m.role ≠ Role.system

lemma sysFirstNoDup_append (l extra : List Message) (h : sysFirstNoDup l)
    (hextra : ∀ m ∈ extra, m.role ≠ Role.system) : sysFirstNoDup (l ++ extra) := by
  obtain ⟨rest, rfl, hrest⟩ := h
  refine ⟨rest ++ extra, by simp, ?_⟩
  intro m hm
  rcases List.mem_append.mp hm with h | h
  · exact hrest m h
  · exact hextra m h

lemma nextState_sysFirst (model : List Message → String × List ToolCall)
    (exec : String → String → String) (msgs : List Message)
    (h : sysFirstNoDup msgs) : sysFirstNoDup (nextState model exec msgs) := by
  refine sysFirstNoDup_append _ _ (sysFirstNoDup_append _ _ h ?_) ?_
  · intro m hm
    rcases List.mem_singleton.mp hm with rfl
    simp [assistantMsg]
  · intro m hm
    rw [runToolCalls_roles exec (model msgs).2 m hm]
    simp

lemma nextState_extends (model : List Message → String × List ToolCall)
    (exec : String → String → String) (msgs : List Message) :
    msgs <+: nextState model exec msgs :=
  (List.prefix_append msgs [assistantMsg model msgs]).trans
    (List.prefix_append _ _)

lemma app_ainvoke_sysFirst (model : List Message → String × List ToolCall)
    (exec : String → String → String) :
    ∀ (fuel : Nat) (msgs : List Message), sysFirstNoDup msgs →
      (∀ ctx ∈ (app_ainvoke model exec fuel msgs).contexts, sysFirstNoDup ctx) ∧
      sysFirstNoDup (app_ainvoke model exec fuel msgs).messages := by
  intro fuel
  induction fuel with
  | zero =>
    intro msgs h
    rw [app_ainvoke_zero]
    exact ⟨by simp, h⟩
  | succ n ih =>
    intro msgs h
    by_cases hcall : (model msgs).2.isEmpty = true
    · rw [app_ainvoke_succ_empty model exec n msgs hcall]
      constructor
      · intro ctx hctx
        rcases List.mem_singleton.mp hctx with rfl
        exact h
      · refine sysFirstNoDup_append _ _ h ?_
        intro m hm
        rcases List.mem_singleton.mp hm with rfl
        simp [assistantMsg]
    · rw [app_ainvoke_succ_tools model exec n msgs hcall]
      have hrec := ih (nextState model exec msgs) (nextState_sysFirst model exec msgs h)
      constructor
      · intro ctx hctx
        rcases List.mem_cons.mp hctx with hc | hc
        · subst hc; exact h
        · exact hrec.1 ctx hc
      · exact hrec.2

lemma app_ainvoke_extends (model : List Message → String × List ToolCall)
    (exec : String → String → String) :
    ∀ (fuel : Nat) (msgs : List Message),
      (∀ ctx ∈ (app_ainvoke model exec fuel msgs).contexts, msgs <+: ctx) ∧
      msgs <+: (app_ainvoke model exec fuel msgs).messages := by
  intro fuel
  induction fuel with
  | zero =>
    intro msgs
    rw [app_ainvoke_zero]
    exact ⟨by simp, List.prefix_rfl⟩
  | succ n ih =>
    intro msgs
    by_cases hcall : (model msgs).2.isEmpty = true
    · rw [app_ainvoke_succ_empty model exec n msgs hcall]
      constructor
      · intro ctx hctx
        rcases List.mem_singleton.mp hctx with rfl
        exact List.prefix_rfl
      · exact List.prefix_append msgs _
    · rw [app_ainvoke_succ_tools model exec n msgs hcall]
      have hrec := ih (nextState model exec msgs)
      constructor
      · intro ctx hctx
        rcases List.mem_cons.mp hctx with hc | hc
        · subst hc; exact List.prefix_rfl
        · exact (nextState_extends model exec msgs).trans (hrec.1 ctx hc)
      · exact (nextState_extends model exec msgs).trans hrec.2

lemma app_ainvoke_chain (model : List Message → String × List ToolCall)
    (exec : String → String → String) :
    ∀ (fuel : Nat) (msgs : List Message),
      List.Chain' (· <+: ·)
        ((app_ainvoke model exec fuel msgs).contexts ++
          [(app_ainvoke model exec fuel msgs).messages]) := by
  intro fuel
  induction fuel with
  | zero =>
    intro msgs
    rw [app_ainvoke_zero]
    simp
  | succ n ih =>
    intro msgs
    by_cases hcall : (model msgs).2.isEmpty = true
    · rw [app_ainvoke_succ_empty model exec n msgs hcall]
      simp only [List.cons_append, List.nil_append, List.chain'_cons,
        List.chain'_singleton, and_true]
      exact List.prefix_append msgs _
    · rw [app_ainvoke_succ_tools model exec n msgs hcall]
      have hrec := ih (nextState model exec msgs)
      have hext := app_ainvoke_extends model exec n (nextState model exec msgs)
      simp only [List.cons_append]
      rw [List.chain'_cons']
      refine ⟨?_, hrec⟩
      intro y hy
      rcases hc : (app_ainvoke model exec n (nextState model exec msgs)).contexts
        with _ | ⟨a, l⟩
      · rw [hc] at hy
        simp only [List.nil_append, List.head?_cons, Option.mem_def,
          Option.some.injEq] at hy
        subst hy
        exact (nextState_extends model exec msgs).trans hext.2
      · rw [hc] at hy
        simp only [List.cons_append, List.head?_cons, Option.mem_def,
          Option.some.injEq] at hy
        subst hy
        refine (nextState_extends model exec msgs).trans (hext.1 a ?_)
        rw [hc]
        exact List.mem_cons_self a l

lemma format_st_history_roles (st : List StMsg) :
    ∀ m ∈ format_st_history_to_langchain st,
      m.role = Role.user ∨ m.role = Role.assistant := by
  induction st with
  | nil => simp [format_st_history_to_langchain]
  | cons s rest ih =>
    intro m hm
    simp only [format_st_history_to_langchain] at hm
    split at hm
    · rcases List.mem_cons.mp hm with h | h
      · subst h; exact Or.inl rfl
      · exact ih m h
    · split at hm
      · rcases List.mem_cons.mp hm with h | h
        · subst h; exact Or.inr rfl
        · exact ih m h
      · exact ih m hm

lemma initialMessages_sysFirst (uq : String) (hist : List StMsg) :
    sysFirstNoDup (initialMessages uq hist) := by
  refine ⟨_, rfl, ?_⟩
  intro m hm
  rcases List.mem_append.mp hm with h | h
  · rcases format_st_history_roles hist m h with hr | hr <;> rw [hr] <;> simp
  · rcases List.mem_singleton.mp h with rfl
    simp

/-- Claim C8: on every iteration the sequence sent to the model is exactly
the system prompt followed by the (system-free) message log — the system
prompt is always first and never duplicated —, each successive context
extends the previous one by appends only (the contexts form a prefix chain
ending in the final state), and every context extends the initial
`[system] + history + [user]` state: no in-place edit, deletion or
reordering ever occurs. -/
theorem claim_C8_context_shape (model : List Message → String × List ToolCall)
    (exec : String → String → String) (fuel : Nat) (uq : String)
    (hist : List StMsg) :
    (∀ ctx ∈ (get_agent_graph_response model exec fuel uq hist).contexts,
      sysFirstNoDup ctx) ∧
    sysFirstNoDup (get_agent_graph_response model exec fuel uq hist).messages ∧
    List.Chain' (· <+: ·)
      ((get_agent_graph_response model exec fuel uq hist).contexts ++
        [(get_agent_graph_response model exec fuel uq hist).messages]) ∧
    (∀ ctx ∈ (get_agent_graph_response model exec fuel uq hist).contexts,
      initialMessages uq hist <+: ctx) := by
  have h0 := initialMessages_sysFirst uq hist
  have h1 := app_ainvoke_sysFirst model exec fuel (initialMessages uq hist) h0
  have h2 := app_ainvoke_chain model exec fuel (initialMessages uq hist)
  have h3 := app_ainvoke_extends model exec fuel (initialMessages uq hist)
  exact ⟨h1.1, h1.2, h2, h3.1⟩

/-- Claim C7: when the model's reply to the current context carries no tool
calls, the run ends at once at the graph's END: that assistant message is
final, no tool executor runs, and the final state is the context plus that
single appended message — so `final_state['messages'][-1]`, the value
`get_agent_graph_response` returns, is exactly that assistant message. -/
theorem claim_C7_no_tool_calls_done (model : List Message → String × List ToolCall)
    (exec : String → String → String) (fuel : Nat) (uq : String) (hist : List StMsg)
    (h : (model (initialMessages uq hist)).2 = []) :
    ∃ am : Message,
      (get_agent_graph_response model exec (fuel + 1) uq hist).finalMessage = some am ∧
      am.role = Role.assistant ∧
      am.content = (model (initialMessages uq hist)).1 ∧
      am.tool_calls = [] ∧
      (get_agent_graph_response model exec (fuel + 1) uq hist).trace = [] ∧
      (get_agent_graph_response model exec (fuel + 1) uq hist).messages =
        initialMessages uq hist ++ [am] ∧
      (get_agent_graph_response model exec (fuel + 1) uq hist).messages.getLast? =
        some am := by
  have hempty : (model (initialMessages uq hist)).2.isEmpty = true := by
    rw [h]; rfl
  refine ⟨assistantMsg model (initialMessages uq hist), ?_⟩
  unfold get_agent_graph_response
  rw [app_ainvoke_succ_empty model exec fuel _ hempty]
  exact ⟨rfl, rfl, rfl, h, rfl, rfl, List.getLast?_concat _⟩

/-- Claim C7 witness: a model that answers "Ciao" with no tool calls on a
concrete one-message run. -/
theorem claim_C7_no_tool_calls_done_witness :
    ∃ am : Message,
      (get_agent_graph_response (fun _ => ("Ciao", ([] : List ToolCall)))
        (fun _ _ => "") 1 "ciao" []).finalMessage = some am ∧
      am.role = Role.assistant ∧
      am.content = "Ciao" ∧
      am.tool_calls = [] ∧
      (get_agent_graph_response (fun _ => ("Ciao", ([] : List ToolCall)))
        (fun _ _ => "") 1 "ciao" []).trace = [] ∧
      (get_agent_graph_response (fun _ => ("Ciao", ([] : List ToolCall)))
        (fun _ _ => "") 1 "ciao" []).messages =
        initialMessages "ciao" [] ++ [am] ∧
      (get_agent_graph_response (fun _ => ("Ciao", ([] : List ToolCall)))
        (fun _ _ => "") 1 "ciao" []).messages.getLast? = some am :=
  claim_C7_no_tool_calls_done (fun _ => ("Ciao", [])) (fun _ _ => "") 0 "ciao" [] rfl

/-- A constant tool executor for the concrete runs below. -/
def constExec : String → String → String := fun _ _ => "risultato"

/-- A model that issues one `web_search_tool` call on each of its first
three turns and then stops: its third request is the (K+1)-th web-search
request of the run for the prompt-configured maximum K = 2. -/
def greedyWebSearchModel (ctx : List Message) : String × List ToolCall :=
  let n := (ctx.filter (fun m => m.role == Role.assistant)).length
  if n < 3 then
    ("", [{ name := "web_search_tool", args := "q" ++ toString n,
            id := "call" ++ toString n }])
  else
    ("Risposta finale", [])

/-- Claim C1 counterexample: in a run whose model requests `web_search_tool`
three times, the executor is invoked on all three requests — the trace
records three web-search executions — and every tool result carries the
executor's payload: no `PolicyRejection` failure is ever synthesized for
the third (K+1-th) request. -/
theorem claim_C1_counterexample :
    (get_agent_graph_response greedyWebSearchModel constExec 10
        "ultime notizie" []).trace =
      [("web_search_tool", "q0"), ("web_search_tool", "q1"),
       ("web_search_tool", "q2")] ∧
    (∀ m ∈ (get_agent_graph_response greedyWebSearchModel constExec 10
        "ultime notizie" []).messages,
      m.role = Role.tool → m.content = "risultato") := by
  constructor
  · rfl
  · decide

/-- Claim C1 as amended: the orchestrator consults no policy layer — in one
tool step every requested call whose tool name is in the catalog invokes
its executor, in request order and regardless of how many earlier calls to
the same tool the run has made, and every requested call receives exactly
one tool result; the "max 2 web searches" limit exists only as system
prompt text. -/
theorem claim_C1_no_policy_gate (exec : String → String → String)
    (calls : List ToolCall) :
    (runToolCalls exec calls).trace =
      (calls.filter (fun c => availableToolNames.contains c.name)).map
        (fun c => (c.name, c.args)) ∧
    (runToolCalls exec calls).messages.length = calls.length := by
  induction calls with
  | nil => simp [runToolCalls]
  | cons c rest ih =>
    by_cases hc : c.name ∈ availableToolNames <;>
      simp [runToolCalls, hc, List.filter_cons, ih.1, ih.2]

/-- A model that requests a web search on every single turn. -/
def alwaysToolModel (_ctx : List Message) : String × List ToolCall :=
  ("", [{ name := "web_search_tool", args := "news", id := "c1" }])

lemma app_ainvoke_no_final (model : List Message → String × List ToolCall)
    (h : ∀ ctx, (model ctx).2 ≠ []) (exec : String → String → String) :
    ∀ (fuel : Nat) (msgs : List Message),
      (app_ainvoke model exec fuel msgs).finalMessage = none ∧
      (app_ainvoke model exec fuel msgs).contexts.length = fuel := by
  intro fuel
  induction fuel with
  | zero =>
    intro msgs
    rw [app_ainvoke_zero]
    exact ⟨rfl, rfl⟩
  | succ n ih =>
    intro msgs
    have hne : ¬ (model msgs).2.isEmpty = true := by
      simp only [List.isEmpty_iff]
      exact h msgs
    rw [app_ainvoke_succ_tools model exec n msgs hne]
    exact ⟨(ih _).1, by simp [(ih _).2]⟩

/-- Claim C2 counterexample: the source loop has no iteration ceiling and no
`FAILED` outcome — with a model that requests a tool on every turn, the run
is still looping after 50 model invocations (50 contexts were sent to the
model) and no terminal value, let alone a distinct "exhausted" failure, is
ever produced. -/
theorem claim_C2_counterexample :
    (app_ainvoke alwaysToolModel constExec 50
        (initialMessages "ultime notizie" [])).finalMessage = none ∧
    (app_ainvoke alwaysToolModel constExec 50
        (initialMessages "ultime notizie" [])).contexts.length = 50 :=
  app_ainvoke_no_final alwaysToolModel (fun _ => by simp [alwaysToolModel])
    constExec 50 (initialMessages "ultime notizie" [])

/-- Claim C2 as amended: the orchestrator of the source imposes no ceiling
on the number of model invocations: for every bound `fuel`, a model that
always requests tool calls drives the run through exactly `fuel` model
invocations with no terminal state and no "exhausted"/`FAILED` outcome —
any bound comes from the model itself or from the external framework's
recursion limit, not from code of this repository. -/
theorem claim_C2_no_iteration_ceiling (model : List Message → String × List ToolCall)
    (exec : String → String → String) (h : ∀ ctx, (model ctx).2 ≠ [])
    (fuel : Nat) (uq : String) (hist : List StMsg) :
    (get_agent_graph_response model exec fuel uq hist).finalMessage = none ∧
    (get_agent_graph_response model exec fuel uq hist).contexts.length = fuel :=
  app_ainvoke_no_final model h exec fuel (initialMessages uq hist)

/-- Claim C2 witness: the amended theorem applied to the always-requesting
model at fuel 3. -/
theorem claim_C2_no_iteration_ceiling_witness :
    (get_agent_graph_response alwaysToolModel constExec 3 "ciao" []).finalMessage =
      none ∧
    (get_agent_graph_response alwaysToolModel constExec 3 "ciao" []).contexts.length =
      3 :=
  claim_C2_no_iteration_ceiling alwaysToolModel constExec
    (fun _ => by simp [alwaysToolModel]) 3 "ciao" []

end Agent

end AISMM
